import Mathlib

/-!
Shallow embedding of src/monero-sys/src/bridge.h.

Embedding conventions:
- C++ uint64_t values are modelled as Nat together with explicit reduction
  modulo U64LIMIT = 2 ^ 64 at exactly the operations where the C++ code can
  wrap (the two subtractions and the running additions in
  createMultiSweepTransaction).
- C++ double values (the sweep ratios, the tolerance epsilon and std::floor /
  std::abs on them) are modelled as exact rationals (Lean Rat); rounding of
  binary64 arithmetic is not modelled.
- The opaque wallet engine (Monero::Wallet) is modelled as a record of the two
  query functions the sweep planner reads: estimateTransactionFee and
  unlockedBalance.
- Each failure path of createMultiSweepTransaction returns nullptr in C++,
  with a comment naming the intended error; the embedding returns a typed
  RejectionReason for the corresponding path. A successful call returns the
  destination/amount list handed to wallet.createTransactionMultDest.
- The easylogging++ log-forwarding bridge is modelled as explicit state
  passing: the process-wide flags and configuration touched by
  install_log_callback form a LogSystem record, and the RustDispatch handler
  is a pure function from the bridge state and a log message to the
  optionally forwarded record.
-/

namespace Monero

/-- Modulus of C++ uint64_t arithmetic. -/
def U64LIMIT : Nat := 2 ^ 64

/-- Wrapping uint64_t subtraction, as in `balance - fee` and
`sweepable_balance - sum` in the source (both operands uint64_t). -/
def u64sub (a b : Nat) : Nat :=
  (a % U64LIMIT + (U64LIMIT - b % U64LIMIT)) % U64LIMIT

/-- The running `sum += amount` accumulation over uint64_t used in the source,
starting from `uint64_t sum = 0`. -/
def u64foldSum (l : List Nat) : Nat :=
  l.foldl (fun s a => (s + a) % U64LIMIT) 0

/-- Model of `std::abs` on a double, applied here to exact rationals. -/
def fabs (q : ℚ) : ℚ := if q < 0 then -q else q

/-- The tolerance `const double epsilon = 1e-6` of the ratio-sum check
(the decimal literal read as an exact rational). -/
def epsilon : ℚ := 1 / 1000000

/-- The fee priority argument; the source always passes
`PendingTransaction::Priority_Default`. -/
inductive Priority
  | Priority_Default
  | Priority_Low
  | Priority_Medium
  | Priority_High
  deriving Repr, DecidableEq

/-- The slice of the opaque wallet engine read by the sweep planner:
`wallet.estimateTransactionFee(...)` and `wallet.unlockedBalance()`. -/
structure Wallet where
  estimateTransactionFee : List (String × Nat) → Priority → Nat
  unlockedBalance : Nat

/-- The failure paths of createMultiSweepTransaction. Each corresponds to a
`return nullptr` in the source, in source order, with the name taken from the
commented-out setStatusError message next to it. -/
inductive RejectionReason
  | EmptyDestinationSet
  | RatioCountMismatch
  | RatiosDoNotSumToOne
  | ZeroAmountDestination
  | PartitionIntegrityFailure
  deriving Repr, DecidableEq

/-- Outcome of createMultiSweepTransaction: either a typed rejection or the
destination/amount list handed to `wallet.createTransactionMultDest`. -/
inductive SweepResult
  | rejected (reason : RejectionReason)
  | plan (outputs : List (String × Nat))
  deriving Repr, DecidableEq

/-- One amount of the first N-1 destinations:
`static_cast<uint64_t>(std::floor(sweepable_balance * sweep_ratios[i]))`. -/
def floorAmount (sweepable : Nat) (ratio : ℚ) : Nat :=
  (Int.floor ((sweepable : ℚ) * ratio)).toNat

/-- The loop over `i = 0 .. n-2` of the source: compute the floored amount for
each ratio, failing (returning none) as soon as one of them is 0. -/
def firstAmounts (sweepable : Nat) : List ℚ → Option (List Nat)
  | [] => some []
  | r :: rs =>
      let amount := floorAmount sweepable r
      if amount = 0 then none
      else
        match firstAmounts sweepable rs with
        | none => none
        | some rest => some (amount :: rest)

/-- The `fee_dests` list built for fee estimation: the first n-1 destination
addresses, each paired with an amount of 1 piconero. -/
def probeOutputs (dest_addresses : List String) : List (String × Nat) :=
  (dest_addresses.take (dest_addresses.length - 1)).map (fun a => (a, 1))

/-- The fee obtained from
`wallet.estimateTransactionFee(fee_dests, PendingTransaction::Priority_Default)`. -/
def estimatedFee (wallet : Wallet) (dest_addresses : List String) : Nat :=
  wallet.estimateTransactionFee (probeOutputs dest_addresses) Priority.Priority_Default

/-- The local `sweepable_balance = balance - fee` of the source, an unguarded
uint64_t subtraction. -/
def sweepableBalance (wallet : Wallet) (dest_addresses : List String) : Nat :=
  u64sub wallet.unlockedBalance (estimatedFee wallet dest_addresses)

/-- Embedding of Monero::createMultiSweepTransaction from
src/monero-sys/src/bridge.h. The three validations, the fee probe, the
floor-based split of the first n-1 amounts, the residual last amount, the
defensive re-verification and the final call are translated branch by branch
in source order. -/
def createMultiSweepTransaction (wallet : Wallet)
    (dest_addresses : List String) (sweep_ratios : List ℚ) : SweepResult :=
  if dest_addresses.length = 0 then
    SweepResult.rejected RejectionReason.EmptyDestinationSet
  else if sweep_ratios.length ≠ dest_addresses.length then
    SweepResult.rejected RejectionReason.RatioCountMismatch
  else if epsilon < fabs (sweep_ratios.sum - 1) then
    SweepResult.rejected RejectionReason.RatiosDoNotSumToOne
  else
    match firstAmounts (sweepableBalance wallet dest_addresses)
        (sweep_ratios.take (dest_addresses.length - 1)) with
    | none => SweepResult.rejected RejectionReason.ZeroAmountDestination
    | some firsts =>
        let amounts := firsts ++
          [u64sub (sweepableBalance wallet dest_addresses) (u64foldSum firsts)]
        if u64foldSum amounts ≠ sweepableBalance wallet dest_addresses then
          SweepResult.rejected RejectionReason.PartitionIntegrityFailure
        else
          SweepResult.plan (dest_addresses.zip amounts)

/-- The amounts a successful call computes for the first n-1 destinations. -/
def plannedFirstAmounts (wallet : Wallet)
    (dest_addresses : List String) (sweep_ratios : List ℚ) : List Nat :=
  (sweep_ratios.take (dest_addresses.length - 1)).map
    (floorAmount (sweepableBalance wallet dest_addresses))

/-- The full amount vector a successful call computes: the floored first n-1
amounts followed by the residual last amount. -/
def plannedAmounts (wallet : Wallet)
    (dest_addresses : List String) (sweep_ratios : List ℚ) : List Nat :=
  plannedFirstAmounts wallet dest_addresses sweep_ratios ++
    [u64sub (sweepableBalance wallet dest_addresses)
      (u64foldSum (plannedFirstAmounts wallet dest_addresses sweep_ratios))]

end Monero

namespace monero_rust_log

/-- The easylogging++ severity levels a dispatched message can carry
(el::Level); Verbose, Global and Unknown fall into the default branch of the
switch in RustDispatch::handle. -/
inductive Level
  | Trace
  | Debug
  | Info
  | Warning
  | Error
  | Fatal
  | Verbose
  | Global
  | Unknown
  deriving Repr, DecidableEq

/-- The fields of an el::LogMessage read by RustDispatch::handle. -/
structure LogMessage where
  level : Level
  file : String
  line : Nat
  func : String
  message : String
  deriving Repr, DecidableEq

/-- The record forwarded to Rust by the forward_cpp_log call. -/
structure ForwardedLog where
  span : String
  level : Nat
  file : String
  line : Nat
  func : String
  message : String
  deriving Repr, DecidableEq

/-- The process-wide state touched by the log bridge: the static
installed/span_name globals of the monero_rust_log namespace together with the
easylogging++ configuration the install function reconfigures. -/
structure LogSystem where
  installed : Bool
  span_name : String
  dispatchCallbacks : List String
  toStandardOutput : Bool
  toFile : Bool
  defaultToStandardOutput : Bool
  defaultToFile : Bool
  perfLoggerEnabled : Bool
  deriving Repr, DecidableEq

/-- Embedding of RustDispatch::handle: on a dispatched message it returns the
record passed to forward_cpp_log, or none when the bridge is not installed
(the early return). The switch on m.level is translated case by case,
including the source comment that Debug is forwarded as 0 (trace). -/
def RustDispatch_handle (sys : LogSystem) (m : LogMessage) : Option ForwardedLog :=
  if sys.installed = false then none
  else
    let level : Nat :=
      match m.level with
      | Level.Trace => 0
      | Level.Debug => 0
      | Level.Info => 2
      | Level.Warning => 3
      | Level.Error => 4
      | Level.Fatal => 4
      | _ => 1
    some
      { span := sys.span_name
        level := level
        file := if m.file.length > 0 then m.file else ""
        line := m.line
        func := m.func
        message := m.message }

/-- Embedding of install_log_callback: a no-op when already installed;
otherwise it sets the globals, registers the rust-forward dispatch callback,
silences stdout/stderr and file writers (current and default configuration)
and disables the PERF logger. -/
def install_log_callback (name : String) (sys : LogSystem) : LogSystem :=
  if sys.installed then sys
  else
    { installed := true
      span_name := name
      dispatchCallbacks := sys.dispatchCallbacks ++ ["rust-forward"]
      toStandardOutput := false
      toFile := false
      defaultToStandardOutput := false
      defaultToFile := false
      perfLoggerEnabled := false }

/-- Embedding of uninstall_log_callback: removes the rust-forward callback and
clears the installed flag (flushAll has no effect on the modelled state). -/
def uninstall_log_callback (sys : LogSystem) : LogSystem :=
  { sys with
    dispatchCallbacks := sys.dispatchCallbacks.filter (fun n => n ≠ "rust-forward")
    installed := false }

end monero_rust_log

namespace Monero

/-- A concrete wallet engine for evaluating the planner: fee estimate 1000 for
every probe, unlocked balance 1000000. -/
def testWallet : Wallet where
  estimateTransactionFee := fun _ _ => 1000
  unlockedBalance := 1000000

/-- A concrete wallet engine whose unlocked balance (500) is below the fee
estimate (1000). -/
def lowBalanceWallet : Wallet where
  estimateTransactionFee := fun _ _ => 1000
  unlockedBalance := 500

/-- A wallet engine agreeing with testWallet on the empty probe list and on
the balance, but answering differently on every nonempty probe list. -/
def testWalletOffProbe : Wallet where
  estimateTransactionFee := fun outputs _ => if outputs = [] then 1000 else 77777
  unlockedBalance := 1000000

/-! Arithmetic facts about the wrapping uint64_t operations. -/

theorem u64limit_eq : U64LIMIT = 18446744073709551616 := by norm_num [U64LIMIT]

theorem u64limit_pos : 0 < U64LIMIT := by norm_num [U64LIMIT]

theorem u64sub_lt (a b : Nat) : u64sub a b < U64LIMIT :=
  Nat.mod_lt _ u64limit_pos

theorem u64sub_eq_sub (a b : Nat) (hb : b ≤ a) (ha : a < U64LIMIT) :
    u64sub a b = a - b := by
  unfold u64sub
  rw [Nat.mod_eq_of_lt ha, Nat.mod_eq_of_lt (lt_of_le_of_lt hb ha)]
  rw [u64limit_eq] at ha ⊢
  omega

theorem u64foldSum_go_lt (l : List Nat) :
    ∀ c, c < U64LIMIT → l.foldl (fun s a => (s + a) % U64LIMIT) c < U64LIMIT := by
  induction l with
  | nil => intro c hc; exact hc
  | cons a l ih =>
      intro c _
      exact ih _ (Nat.mod_lt _ u64limit_pos)

theorem u64foldSum_lt (l : List Nat) : u64foldSum l < U64LIMIT :=
  u64foldSum_go_lt l 0 u64limit_pos

theorem u64foldSum_go_eq (l : List Nat) :
    ∀ c, c + l.sum < U64LIMIT →
      l.foldl (fun s a => (s + a) % U64LIMIT) c = c + l.sum := by
  induction l with
  | nil => intro c _; simp
  | cons a l ih =>
      intro c hc
      simp only [List.sum_cons] at hc ⊢
      simp only [List.foldl_cons]
      have hca : (c + a) % U64LIMIT = c + a := Nat.mod_eq_of_lt (by omega)
      rw [hca]
      rw [ih (c + a) (by omega)]
      omega

theorem u64foldSum_eq_sum (l : List Nat) (h : l.sum < U64LIMIT) :
    u64foldSum l = l.sum := by
  simpa using u64foldSum_go_eq l 0 (by omega)

theorem wrap_cancel (σ s : Nat) (hσ : σ < U64LIMIT) (hs : s < U64LIMIT) :
    (σ + u64sub s σ) % U64LIMIT = s := by
  unfold u64sub
  rw [Nat.mod_eq_of_lt hs, Nat.mod_eq_of_lt hσ]
  rw [u64limit_eq] at hs hσ ⊢
  omega

theorem u64foldSum_append_residual (l : List Nat) (s : Nat) (hs : s < U64LIMIT) :
    u64foldSum (l ++ [u64sub s (u64foldSum l)]) = s := by
  have hσ := u64foldSum_lt l
  unfold u64foldSum
  rw [List.foldl_append]
  simp only [List.foldl_cons, List.foldl_nil]
  exact wrap_cancel _ _ hσ hs

/-! Characterization of the loop over the first N-1 ratios. -/

theorem firstAmounts_eq_some (s : Nat) (rs : List ℚ)
    (h : ∀ r ∈ rs, floorAmount s r ≠ 0) :
    firstAmounts s rs = some (rs.map (floorAmount s)) := by
  induction rs with
  | nil => rfl
  | cons r rs ih =>
      simp only [firstAmounts]
      rw [if_neg (h r (List.mem_cons_self r rs))]
      rw [ih (fun x hx => h x (List.mem_cons_of_mem _ hx))]
      simp

theorem firstAmounts_eq_none (s : Nat) (rs : List ℚ)
    (h : ∃ r ∈ rs, floorAmount s r = 0) :
    firstAmounts s rs = none := by
  induction rs with
  | nil => simp at h
  | cons r rs ih =>
      simp only [firstAmounts]
      by_cases h0 : floorAmount s r = 0
      · rw [if_pos h0]
      · rw [if_neg h0]
        obtain ⟨x, hx, hx0⟩ := h
        rcases List.mem_cons.mp hx with h1 | h1
        · exact absurd (h1 ▸ hx0) h0
        · rw [ih ⟨x, h1, hx0⟩]

/-! Characterization of each branch of createMultiSweepTransaction. -/

theorem reject_of_empty (wallet : Wallet) (dests : List String) (ratios : List ℚ)
    (h : dests.length = 0) :
    createMultiSweepTransaction wallet dests ratios =
      SweepResult.rejected RejectionReason.EmptyDestinationSet := by
  unfold createMultiSweepTransaction
  rw [if_pos h]

theorem reject_of_mismatch (wallet : Wallet) (dests : List String) (ratios : List ℚ)
    (h0 : dests.length ≠ 0) (h1 : ratios.length ≠ dests.length) :
    createMultiSweepTransaction wallet dests ratios =
      SweepResult.rejected RejectionReason.RatioCountMismatch := by
  unfold createMultiSweepTransaction
  rw [if_neg h0, if_pos h1]

theorem reject_of_ratio_sum (wallet : Wallet) (dests : List String) (ratios : List ℚ)
    (h0 : dests.length ≠ 0) (h1 : ratios.length = dests.length)
    (h2 : epsilon < fabs (ratios.sum - 1)) :
    createMultiSweepTransaction wallet dests ratios =
      SweepResult.rejected RejectionReason.RatiosDoNotSumToOne := by
  unfold createMultiSweepTransaction
  rw [if_neg h0, if_neg (not_not_intro h1), if_pos h2]

theorem reject_of_zero_amount (wallet : Wallet) (dests : List String) (ratios : List ℚ)
    (h0 : dests.length ≠ 0) (h1 : ratios.length = dests.length)
    (h2 : ¬ epsilon < fabs (ratios.sum - 1))
    (h3 : ∃ r ∈ ratios.take (dests.length - 1),
      floorAmount (sweepableBalance wallet dests) r = 0) :
    createMultiSweepTransaction wallet dests ratios =
      SweepResult.rejected RejectionReason.ZeroAmountDestination := by
  unfold createMultiSweepTransaction
  rw [if_neg h0, if_neg (not_not_intro h1), if_neg h2, firstAmounts_eq_none _ _ h3]

theorem sweepableBalance_lt (wallet : Wallet) (dests : List String) :
    sweepableBalance wallet dests < U64LIMIT :=
  u64sub_lt _ _

theorem plan_of_valid (wallet : Wallet) (dests : List String) (ratios : List ℚ)
    (h0 : dests.length ≠ 0) (h1 : ratios.length = dests.length)
    (h2 : ¬ epsilon < fabs (ratios.sum - 1))
    (h3 : ∀ r ∈ ratios.take (dests.length - 1),
      floorAmount (sweepableBalance wallet dests) r ≠ 0) :
    createMultiSweepTransaction wallet dests ratios =
      SweepResult.plan (dests.zip (plannedAmounts wallet dests ratios)) := by
  unfold createMultiSweepTransaction
  rw [if_neg h0, if_neg (not_not_intro h1), if_neg h2, firstAmounts_eq_some _ _ h3]
  simp only []
  rw [if_neg (not_not_intro
    (u64foldSum_append_residual _ _ (sweepableBalance_lt wallet dests)))]
  rfl

theorem u64sub_zero (a : Nat) (ha : a < U64LIMIT) : u64sub a 0 = a := by
  rw [u64sub_eq_sub a 0 (Nat.zero_le a) ha]
  omega

theorem plannedAmounts_length (wallet : Wallet) (dests : List String) (ratios : List ℚ)
    (h0 : dests.length ≠ 0) (h1 : ratios.length = dests.length) :
    (plannedAmounts wallet dests ratios).length = dests.length := by
  simp only [plannedAmounts, plannedFirstAmounts, List.length_append, List.length_map,
    List.length_take, List.length_singleton, h1]
  omega

theorem plan_inversion (wallet : Wallet) (dests : List String) (ratios : List ℚ)
    (outs : List (String × Nat))
    (h : createMultiSweepTransaction wallet dests ratios = SweepResult.plan outs) :
    dests.length ≠ 0 ∧ ratios.length = dests.length ∧
    ¬ epsilon < fabs (ratios.sum - 1) ∧
    (∀ r ∈ ratios.take (dests.length - 1),
      floorAmount (sweepableBalance wallet dests) r ≠ 0) ∧
    outs = dests.zip (plannedAmounts wallet dests ratios) := by
  by_cases h0 : dests.length = 0
  · rw [reject_of_empty wallet dests ratios h0] at h
    exact absurd h (by simp)
  by_cases h1 : ratios.length = dests.length
  case neg =>
    rw [reject_of_mismatch wallet dests ratios h0 h1] at h
    exact absurd h (by simp)
  by_cases h2 : epsilon < fabs (ratios.sum - 1)
  · rw [reject_of_ratio_sum wallet dests ratios h0 h1 h2] at h
    exact absurd h (by simp)
  by_cases h3 : ∀ r ∈ ratios.take (dests.length - 1),
      floorAmount (sweepableBalance wallet dests) r ≠ 0
  · refine ⟨h0, h1, h2, h3, ?_⟩
    rw [plan_of_valid wallet dests ratios h0 h1 h2 h3] at h
    exact (SweepResult.plan.inj h).symm
  · push_neg at h3
    rw [reject_of_zero_amount wallet dests ratios h0 h1 h2 h3] at h
    exact absurd h (by simp)

/-- The planner evaluated at testWallet on a single destination with ratio 1:
the whole sweepable balance 1000000 - 1000 goes to that destination. -/
theorem testWallet_single_eval :
    createMultiSweepTransaction testWallet ["A"] [1] =
      SweepResult.plan [("A", 999000)] := by
  have h := plan_of_valid testWallet ["A"] [1] (by decide) (by decide)
    (by norm_num [fabs, epsilon]) (by simp)
  rw [h]
  have hs : sweepableBalance testWallet ["A"] = 999000 := by decide
  have hpa : plannedAmounts testWallet ["A"] [1] = [999000] := by
    unfold plannedAmounts plannedFirstAmounts
    simp only [List.length_cons, List.length_nil, Nat.zero_add, Nat.add_sub_cancel,
      Nat.sub_self, List.take_zero, List.map_nil, List.nil_append]
    rw [show u64foldSum [] = 0 from rfl, hs,
      u64sub_zero 999000 (by rw [u64limit_eq]; norm_num)]
  rw [hpa]
  rfl

/-- The fee estimate of testWallet is 1000 on every probe. -/
theorem estimatedFee_testWallet (dests : List String) :
    estimatedFee testWallet dests = 1000 := rfl

/-- The sweepable balance of testWallet: 1000000 - 1000. -/
theorem sweepable_testWallet (dests : List String) :
    sweepableBalance testWallet dests = 999000 := by
  show u64sub 1000000 1000 = 999000
  decide

theorem floorAmount_999000_half : floorAmount 999000 (1/2) = 499500 := by
  norm_num [floorAmount]
  rfl

theorem floorAmount_999000_threeTenths : floorAmount 999000 (3/10) = 299700 := by
  norm_num [floorAmount]
  rfl

theorem floorAmount_999000_threeHalves : floorAmount 999000 (3/2) = 1498500 := by
  norm_num [floorAmount]
  rfl

theorem nonzero_testWallet_three :
    ∀ r ∈ ([1/2, 3/10, 1/5] : List ℚ).take ((["A", "B", "C"] : List String).length - 1),
      floorAmount (sweepableBalance testWallet ["A", "B", "C"]) r ≠ 0 := by
  intro r hr
  rw [sweepable_testWallet]
  rw [show (([1/2, 3/10, 1/5] : List ℚ).take ((["A", "B", "C"] : List String).length - 1)) =
    [1/2, 3/10] from rfl] at hr
  rcases List.mem_cons.mp hr with h | h
  · rw [h, floorAmount_999000_half]
    decide
  · rw [List.mem_singleton.mp h, floorAmount_999000_threeTenths]
    decide

theorem plannedFirstAmounts_testWallet_three :
    plannedFirstAmounts testWallet ["A", "B", "C"] [1/2, 3/10, 1/5] =
      [499500, 299700] := by
  unfold plannedFirstAmounts
  rw [sweepable_testWallet]
  rw [show (([1/2, 3/10, 1/5] : List ℚ).take ((["A", "B", "C"] : List String).length - 1)) =
    [1/2, 3/10] from rfl]
  rw [List.map_cons, List.map_cons, List.map_nil,
    floorAmount_999000_half, floorAmount_999000_threeTenths]

theorem plannedAmounts_testWallet_three :
    plannedAmounts testWallet ["A", "B", "C"] [1/2, 3/10, 1/5] =
      [499500, 299700, 199800] := by
  unfold plannedAmounts
  rw [plannedFirstAmounts_testWallet_three, sweepable_testWallet]
  rw [show u64foldSum [499500, 299700] = 799200 from by decide]
  rw [show u64sub 999000 799200 = 199800 from by decide]
  rfl

/-- The planner evaluated at testWallet on the worked example of the spec:
balance 1000000, fee 1000, ratios one half, three tenths, one fifth. -/
theorem testWallet_three_eval :
    createMultiSweepTransaction testWallet ["A", "B", "C"] [1/2, 3/10, 1/5] =
      SweepResult.plan [("A", 499500), ("B", 299700), ("C", 199800)] := by
  rw [plan_of_valid testWallet ["A", "B", "C"] [1/2, 3/10, 1/5] (by decide) (by decide)
    (by norm_num [fabs, epsilon, List.sum_cons, List.sum_nil]) nonzero_testWallet_three]
  rw [plannedAmounts_testWallet_three]
  rfl

/-- C5: the three validations run in source order. An empty destination set is
rejected as EmptyDestinationSet for every ratio list and every wallet engine;
with destinations present, a ratio-count mismatch is rejected as
RatioCountMismatch for every ratio values and engine; with matching counts, a
ratio sum outside the 1e-6 tolerance is rejected as RatiosDoNotSumToOne,
again for every engine. Universality in the wallet engine shows the rejection
happens before any fee estimation or balance read can influence the result,
and the unconditional first conjunct shows the empty check precedes the
others. -/
theorem claim5_validation_order (wallet : Wallet) (dests : List String)
    (ratios : List ℚ) :
    (dests.length = 0 →
      createMultiSweepTransaction wallet dests ratios =
        SweepResult.rejected RejectionReason.EmptyDestinationSet) ∧
    (dests.length ≠ 0 → ratios.length ≠ dests.length →
      createMultiSweepTransaction wallet dests ratios =
        SweepResult.rejected RejectionReason.RatioCountMismatch) ∧
    (dests.length ≠ 0 → ratios.length = dests.length →
      epsilon < fabs (ratios.sum - 1) →
      createMultiSweepTransaction wallet dests ratios =
        SweepResult.rejected RejectionReason.RatiosDoNotSumToOne) :=
  ⟨reject_of_empty wallet dests ratios,
   reject_of_mismatch wallet dests ratios,
   reject_of_ratio_sum wallet dests ratios⟩

/-- Witness for C5 at concrete inputs: all three rejections fire as stated. -/
theorem claim5_validation_order_witness :
    createMultiSweepTransaction testWallet [] [1/2] =
      SweepResult.rejected RejectionReason.EmptyDestinationSet ∧
    createMultiSweepTransaction testWallet ["A"] [] =
      SweepResult.rejected RejectionReason.RatioCountMismatch ∧
    createMultiSweepTransaction testWallet ["A"] [1/2] =
      SweepResult.rejected RejectionReason.RatiosDoNotSumToOne :=
  ⟨(claim5_validation_order testWallet [] [1/2]).1 rfl,
   (claim5_validation_order testWallet ["A"] []).2.1 (by decide) (by decide),
   (claim5_validation_order testWallet ["A"] [1/2]).2.2 (by decide) (by decide)
     (by norm_num [fabs, epsilon])⟩

/-- C3: for every validated input, the planner computes the amounts of the
first N-1 destinations as the floor of sweepable times the ratio, rejects
with ZeroAmountDestination when any of those floored amounts is 0, and
otherwise emits the plan in which the last destination receives the residual
sweepable minus the (uint64) sum of the first N-1 amounts, in input order. -/
theorem claim3_floor_partition (wallet : Wallet) (dests : List String)
    (ratios : List ℚ)
    (h0 : dests.length ≠ 0) (h1 : ratios.length = dests.length)
    (h2 : ¬ epsilon < fabs (ratios.sum - 1)) :
    ((∃ r ∈ ratios.take (dests.length - 1),
        floorAmount (sweepableBalance wallet dests) r = 0) →
      createMultiSweepTransaction wallet dests ratios =
        SweepResult.rejected RejectionReason.ZeroAmountDestination) ∧
    ((∀ r ∈ ratios.take (dests.length - 1),
        floorAmount (sweepableBalance wallet dests) r ≠ 0) →
      createMultiSweepTransaction wallet dests ratios =
        SweepResult.plan (dests.zip
          ((ratios.take (dests.length - 1)).map
              (floorAmount (sweepableBalance wallet dests)) ++
            [u64sub (sweepableBalance wallet dests)
              (u64foldSum ((ratios.take (dests.length - 1)).map
                (floorAmount (sweepableBalance wallet dests))))]))) :=
  ⟨reject_of_zero_amount wallet dests ratios h0 h1 h2,
   fun h3 => plan_of_valid wallet dests ratios h0 h1 h2 h3⟩

/-- Witness for C3: the worked example of the spec. With balance 1000000,
fee 1000 and ratios one half, three tenths, one fifth, the plan is
499500, 299700, 199800, summing to 999000. -/
theorem claim3_floor_partition_witness :
    createMultiSweepTransaction testWallet ["A", "B", "C"] [1/2, 3/10, 1/5] =
      SweepResult.plan [("A", 499500), ("B", 299700), ("C", 199800)] ∧
    [499500, 299700, 199800].sum = 999000 := by
  constructor
  · have h := (claim3_floor_partition testWallet ["A", "B", "C"] [1/2, 3/10, 1/5]
      (by decide) (by decide)
      (by norm_num [fabs, epsilon, List.sum_cons, List.sum_nil])).2
      nonzero_testWallet_three
    have h2 : SweepResult.plan
        (["A", "B", "C"].zip (plannedAmounts testWallet ["A", "B", "C"] [1/2, 3/10, 1/5])) =
        SweepResult.plan [("A", 499500), ("B", 299700), ("C", 199800)] := by
      rw [plannedAmounts_testWallet_three]
      rfl
    exact h.trans h2
  · decide

/-- C1 as stated is refuted: the ratio list with entries three halves and
minus one half passes the sum-to-one validation, yet the emitted plan has
integer amount total 1498500 + 18446744073709052116, which exceeds
balance - fee = 999000: the final uint64 subtraction wrapped. -/
theorem claim1_sum_counterexample :
    createMultiSweepTransaction testWallet ["A", "B"] [3/2, -(1/2)] =
      SweepResult.plan [("A", 1498500), ("B", 18446744073709052116)] ∧
    ([("A", 1498500), ("B", 18446744073709052116)].map Prod.snd).sum ≠
      testWallet.unlockedBalance - estimatedFee testWallet ["A", "B"] := by
  constructor
  · have hnz : ∀ r ∈ ([3/2, -(1/2)] : List ℚ).take ((["A", "B"] : List String).length - 1),
        floorAmount (sweepableBalance testWallet ["A", "B"]) r ≠ 0 := by
      intro r hr
      rw [show (([3/2, -(1/2)] : List ℚ).take ((["A", "B"] : List String).length - 1)) =
        [3/2] from rfl] at hr
      rw [List.mem_singleton.mp hr, sweepable_testWallet, floorAmount_999000_threeHalves]
      decide
    rw [plan_of_valid testWallet ["A", "B"] [3/2, -(1/2)] (by decide) (by decide)
      (by norm_num [fabs, epsilon, List.sum_cons, List.sum_nil]) hnz]
    have hpa : plannedAmounts testWallet ["A", "B"] [3/2, -(1/2)] =
        [1498500, 18446744073709052116] := by
      unfold plannedAmounts plannedFirstAmounts
      rw [sweepable_testWallet]
      rw [show (([3/2, -(1/2)] : List ℚ).take ((["A", "B"] : List String).length - 1)) =
        [3/2] from rfl]
      rw [List.map_cons, List.map_nil, floorAmount_999000_threeHalves]
      rw [show u64foldSum [1498500] = 1498500 from by decide]
      rw [show u64sub 999000 1498500 = 18446744073709052116 from by decide]
      rfl
    rw [hpa]
    rfl
  · decide

/-- C1 corrected: with the additional hypothesis that the total of the first
N-1 floored amounts does not exceed the sweepable balance (so the final
uint64 subtraction cannot wrap; true in particular for the intended
nonnegative ratios summing to one when no rounding pushes the total over),
every emitted plan pairs each destination with exactly one amount and the
integer sum of the amounts is exactly unlockedBalance - feeEstimate. -/
theorem claim1_exact_sum_amended (wallet : Wallet) (dests : List String)
    (ratios : List ℚ) (outs : List (String × Nat))
    (hbal : wallet.unlockedBalance < U64LIMIT)
    (hfee : estimatedFee wallet dests ≤ wallet.unlockedBalance)
    (hnowrap : (plannedFirstAmounts wallet dests ratios).sum ≤
      sweepableBalance wallet dests)
    (hplan : createMultiSweepTransaction wallet dests ratios = SweepResult.plan outs) :
    outs.length = dests.length ∧
    (outs.map Prod.snd).sum = wallet.unlockedBalance - estimatedFee wallet dests := by
  obtain ⟨h0, h1, h2, h3, rfl⟩ := plan_inversion wallet dests ratios outs hplan
  have hsw : sweepableBalance wallet dests =
      wallet.unlockedBalance - estimatedFee wallet dests :=
    u64sub_eq_sub _ _ hfee hbal
  have hlenA := plannedAmounts_length wallet dests ratios h0 h1
  refine ⟨?_, ?_⟩
  · rw [List.length_zip, hlenA, Nat.min_self]
  · rw [List.map_snd_zip _ _ (le_of_eq hlenA)]
    have hσ : u64foldSum (plannedFirstAmounts wallet dests ratios) =
        (plannedFirstAmounts wallet dests ratios).sum :=
      u64foldSum_eq_sum _ (lt_of_le_of_lt hnowrap (sweepableBalance_lt wallet dests))
    unfold plannedAmounts
    rw [hσ, List.sum_append, List.sum_cons, List.sum_nil,
      u64sub_eq_sub _ _ hnowrap (sweepableBalance_lt wallet dests)]
    omega

/-- Witness for C1 amended, at the worked example of the spec. -/
theorem claim1_exact_sum_amended_witness :
    ([("A", 499500), ("B", 299700), ("C", 199800)] : List (String × Nat)).length =
      (["A", "B", "C"] : List String).length ∧
    ([("A", 499500), ("B", 299700), ("C", 199800)].map Prod.snd).sum =
      testWallet.unlockedBalance - estimatedFee testWallet ["A", "B", "C"] := by
  have h := claim1_exact_sum_amended testWallet ["A", "B", "C"] [1/2, 3/10, 1/5]
    [("A", 499500), ("B", 299700), ("C", 199800)]
    (by decide) (by decide)
    (by rw [plannedFirstAmounts_testWallet_three, sweepable_testWallet]; decide)
    testWallet_three_eval
  exact ⟨h.1, h.2⟩

theorem floorAmount_999000_one : floorAmount 999000 1 = 999000 := by
  norm_num [floorAmount]
  rfl

/-- C2 is a code bug: the source computes sweepable_balance = balance - fee
without any guard, so with balance 500 and fee estimate 1000 the uint64
subtraction wraps and the planner emits a plan paying 2 ^ 64 - 500 piconero
instead of rejecting for insufficient balance. -/
theorem claim2_underflow_eval :
    lowBalanceWallet.unlockedBalance < estimatedFee lowBalanceWallet ["A"] ∧
    createMultiSweepTransaction lowBalanceWallet ["A"] [1] =
      SweepResult.plan [("A", 18446744073709551116)] ∧
    18446744073709551116 = U64LIMIT - 500 := by
  refine ⟨by decide, ?_, by rw [u64limit_eq]⟩
  have h := plan_of_valid lowBalanceWallet ["A"] [1] (by decide) (by decide)
    (by norm_num [fabs, epsilon, List.sum_cons, List.sum_nil]) (by simp)
  rw [h]
  have hs : sweepableBalance lowBalanceWallet ["A"] = 18446744073709551116 := by
    show u64sub 500 1000 = 18446744073709551116
    decide
  have hpa : plannedAmounts lowBalanceWallet ["A"] [1] = [18446744073709551116] := by
    unfold plannedAmounts plannedFirstAmounts
    simp only [List.length_cons, List.length_nil, Nat.zero_add, Nat.add_sub_cancel,
      Nat.sub_self, List.take_zero, List.map_nil, List.nil_append]
    rw [show u64foldSum [] = 0 from rfl, hs,
      u64sub_zero _ (by rw [u64limit_eq]; norm_num)]
  rw [hpa]
  rfl

/-- C4 as stated is refuted: the ratios one and zero pass every validation,
the single checked first amount is 999000 which is nonzero, and the emitted
plan assigns amount 0 to the last destination, so a plan containing a zero
amount is emitted. -/
theorem claim4_zero_last_counterexample :
    createMultiSweepTransaction testWallet ["A", "B"] [1, 0] =
      SweepResult.plan [("A", 999000), ("B", 0)] ∧
    ¬ (∀ p ∈ ([("A", 999000), ("B", 0)] : List (String × Nat)), 0 < p.2) := by
  constructor
  · have hnz : ∀ r ∈ ([1, 0] : List ℚ).take ((["A", "B"] : List String).length - 1),
        floorAmount (sweepableBalance testWallet ["A", "B"]) r ≠ 0 := by
      intro r hr
      rw [show (([1, 0] : List ℚ).take ((["A", "B"] : List String).length - 1)) =
        [1] from rfl] at hr
      rw [List.mem_singleton.mp hr, sweepable_testWallet, floorAmount_999000_one]
      decide
    rw [plan_of_valid testWallet ["A", "B"] [1, 0] (by decide) (by decide)
      (by norm_num [fabs, epsilon, List.sum_cons, List.sum_nil]) hnz]
    have hpa : plannedAmounts testWallet ["A", "B"] [1, 0] = [999000, 0] := by
      unfold plannedAmounts plannedFirstAmounts
      rw [sweepable_testWallet]
      rw [show (([1, 0] : List ℚ).take ((["A", "B"] : List String).length - 1)) =
        [1] from rfl]
      rw [List.map_cons, List.map_nil, floorAmount_999000_one]
      rw [show u64foldSum [999000] = 999000 from by decide]
      rw [show u64sub 999000 999000 = 0 from by decide]
      rfl
    rw [hpa]
    rfl
  · decide

/-- C4 corrected: in every emitted plan all entries except possibly the last
carry a positive amount (these are exactly the amounts the zero check of the
source guards); the last, residue-absorbing entry is not checked and can be
zero. -/
theorem claim4_positive_amounts_amended (wallet : Wallet) (dests : List String)
    (ratios : List ℚ) (outs : List (String × Nat))
    (hplan : createMultiSweepTransaction wallet dests ratios = SweepResult.plan outs) :
    ∀ p ∈ outs.dropLast, 0 < p.2 := by
  obtain ⟨h0, h1, h2, h3, rfl⟩ := plan_inversion wallet dests ratios outs hplan
  intro p hp
  have hm : p.2 ∈
      ((dests.zip (plannedAmounts wallet dests ratios)).dropLast).map Prod.snd :=
    List.mem_map_of_mem _ hp
  rw [List.map_dropLast] at hm
  rw [List.map_snd_zip _ _
    (le_of_eq (plannedAmounts_length wallet dests ratios h0 h1))] at hm
  unfold plannedAmounts at hm
  rw [List.dropLast_concat] at hm
  unfold plannedFirstAmounts at hm
  obtain ⟨r, hr, hfr⟩ := List.mem_map.mp hm
  exact hfr ▸ Nat.pos_of_ne_zero (h3 r hr)

/-- Witness for C4 amended: in the worked example, the two non-last amounts
are positive. -/
theorem claim4_positive_amounts_amended_witness :
    0 < (("A", 499500) : String × Nat).2 ∧ 0 < (("B", 299700) : String × Nat).2 :=
  ⟨claim4_positive_amounts_amended testWallet ["A", "B", "C"] [1/2, 3/10, 1/5]
      [("A", 499500), ("B", 299700), ("C", 199800)] testWallet_three_eval
      ("A", 499500) (by decide),
   claim4_positive_amounts_amended testWallet ["A", "B", "C"] [1/2, 3/10, 1/5]
      [("A", 499500), ("B", 299700), ("C", 199800)] testWallet_three_eval
      ("B", 299700) (by decide)⟩

/-- C10: with a single destination whose ratio passes the tolerance check,
the fee probe is the query at the empty output list, no per-destination zero
check applies, and the whole balance minus that fee goes to the destination,
whatever the ratio value. -/
theorem claim10_single_destination (wallet : Wallet) (addr : String) (ratio : ℚ)
    (hr : ¬ epsilon < fabs (ratio - 1))
    (hbal : wallet.unlockedBalance < U64LIMIT)
    (hfee : wallet.estimateTransactionFee [] Priority.Priority_Default ≤
      wallet.unlockedBalance) :
    estimatedFee wallet [addr] =
      wallet.estimateTransactionFee [] Priority.Priority_Default ∧
    createMultiSweepTransaction wallet [addr] [ratio] =
      SweepResult.plan [(addr, wallet.unlockedBalance -
        wallet.estimateTransactionFee [] Priority.Priority_Default)] := by
  have hfeeEq : estimatedFee wallet [addr] =
      wallet.estimateTransactionFee [] Priority.Priority_Default := rfl
  refine ⟨hfeeEq, ?_⟩
  have hsum : ¬ epsilon < fabs (([ratio] : List ℚ).sum - 1) := by
    simpa using hr
  have h := plan_of_valid wallet [addr] [ratio] (by simp) (by simp) hsum (by simp)
  rw [h]
  have hs : sweepableBalance wallet [addr] =
      wallet.unlockedBalance - wallet.estimateTransactionFee [] Priority.Priority_Default := by
    unfold sweepableBalance
    rw [hfeeEq]
    exact u64sub_eq_sub _ _ hfee hbal
  have hpa : plannedAmounts wallet [addr] [ratio] =
      [wallet.unlockedBalance - wallet.estimateTransactionFee [] Priority.Priority_Default] := by
    unfold plannedAmounts plannedFirstAmounts
    simp only [List.length_cons, List.length_nil, Nat.zero_add, Nat.add_sub_cancel,
      Nat.sub_self, List.take_zero, List.map_nil, List.nil_append]
    rw [show u64foldSum [] = 0 from rfl, hs,
      u64sub_zero _ (Nat.lt_of_le_of_lt (Nat.sub_le _ _) hbal)]
  rw [hpa]
  rfl

/-- Witness for C10 at testWallet. -/
theorem claim10_single_destination_witness :
    estimatedFee testWallet ["A"] =
      testWallet.estimateTransactionFee [] Priority.Priority_Default ∧
    createMultiSweepTransaction testWallet ["A"] [1] =
      SweepResult.plan [("A", testWallet.unlockedBalance -
        testWallet.estimateTransactionFee [] Priority.Priority_Default)] :=
  claim10_single_destination testWallet "A" 1
    (by norm_num [fabs, epsilon]) (by decide) (by decide)

/-- C6: the defensive re-verification can never fail. The planner never
returns the PartitionIntegrityFailure rejection, and every emitted plan has
uint64 sum (the sum the re-verification loop computes) exactly equal to the
sweepable balance. -/
theorem claim6_integrity_unreachable (wallet : Wallet) (dests : List String)
    (ratios : List ℚ) :
    createMultiSweepTransaction wallet dests ratios ≠
      SweepResult.rejected RejectionReason.PartitionIntegrityFailure ∧
    (∀ outs, createMultiSweepTransaction wallet dests ratios = SweepResult.plan outs →
      u64foldSum (outs.map Prod.snd) = sweepableBalance wallet dests) := by
  constructor
  · intro h
    by_cases h0 : dests.length = 0
    · rw [reject_of_empty wallet dests ratios h0] at h
      exact RejectionReason.noConfusion (SweepResult.rejected.inj h)
    by_cases h1 : ratios.length = dests.length
    case neg =>
      rw [reject_of_mismatch wallet dests ratios h0 h1] at h
      exact RejectionReason.noConfusion (SweepResult.rejected.inj h)
    by_cases h2 : epsilon < fabs (ratios.sum - 1)
    · rw [reject_of_ratio_sum wallet dests ratios h0 h1 h2] at h
      exact RejectionReason.noConfusion (SweepResult.rejected.inj h)
    by_cases h3 : ∀ r ∈ ratios.take (dests.length - 1),
        floorAmount (sweepableBalance wallet dests) r ≠ 0
    · rw [plan_of_valid wallet dests ratios h0 h1 h2 h3] at h
      exact SweepResult.noConfusion h
    · push_neg at h3
      rw [reject_of_zero_amount wallet dests ratios h0 h1 h2 h3] at h
      exact RejectionReason.noConfusion (SweepResult.rejected.inj h)
  · intro outs houts
    obtain ⟨h0, h1, h2, h3, rfl⟩ := plan_inversion wallet dests ratios outs houts
    rw [List.map_snd_zip _ _ (le_of_eq (plannedAmounts_length wallet dests ratios h0 h1))]
    unfold plannedAmounts
    exact u64foldSum_append_residual _ _ (sweepableBalance_lt wallet dests)

/-- Witness for C6 at a concrete input: the sum of the emitted amounts is the
sweepable balance. -/
theorem claim6_integrity_unreachable_witness :
    u64foldSum ([("A", 999000)].map Prod.snd) = sweepableBalance testWallet ["A"] :=
  (claim6_integrity_unreachable testWallet ["A"] [1]).2
    [("A", 999000)] testWallet_single_eval

/-- C7: the planner consults the fee oracle only at the probe consisting of
the first N-1 destination addresses, each paired with amount 1, at the
default priority tier: two engines agreeing on the balance and on that one
query are indistinguishable to the whole computation, including the partition
built afterwards from the returned fee. -/
theorem claim7_fee_probe (w₁ w₂ : Wallet) (dests : List String) (ratios : List ℚ)
    (hbal : w₁.unlockedBalance = w₂.unlockedBalance)
    (hfee : w₁.estimateTransactionFee
        ((dests.take (dests.length - 1)).map (fun a => (a, 1))) Priority.Priority_Default =
      w₂.estimateTransactionFee
        ((dests.take (dests.length - 1)).map (fun a => (a, 1))) Priority.Priority_Default) :
    createMultiSweepTransaction w₁ dests ratios =
      createMultiSweepTransaction w₂ dests ratios := by
  have hsw : sweepableBalance w₁ dests = sweepableBalance w₂ dests := by
    unfold sweepableBalance estimatedFee probeOutputs
    rw [hbal, hfee]
  unfold createMultiSweepTransaction
  rw [hsw]

/-- Witness for C7: two engines that differ on every nonempty probe list but
agree on the empty probe and the balance produce the same plan for a single
destination. -/
theorem claim7_fee_probe_witness :
    createMultiSweepTransaction testWallet ["A"] [1] =
      createMultiSweepTransaction testWalletOffProbe ["A"] [1] :=
  claim7_fee_probe testWallet testWalletOffProbe ["A"] [1] rfl (by decide)

end Monero

namespace monero_rust_log

/-- C9: install_log_callback is idempotent: installing a second time, with any
channel name, leaves the whole logging state (installed flag, stored channel
name, callback registration and all configuration) exactly as after the first
install. -/
theorem claim9_install_idempotent (sys : LogSystem) (name1 name2 : String) :
    install_log_callback name2 (install_log_callback name1 sys) =
      install_log_callback name1 sys := by
  by_cases h : sys.installed <;> simp [install_log_callback, h]

/-- C8 as stated is refuted: a Debug message dispatched while the bridge is
installed is forwarded with level 0, not the level 1 the claim assigns to
debug (the source deliberately demotes Debug to the trace level because of
its volume). -/
theorem claim8_debug_counterexample :
    (RustDispatch_handle
      { installed := true, span_name := "monero_cpp", dispatchCallbacks := ["rust-forward"],
        toStandardOutput := false, toFile := false, defaultToStandardOutput := false,
        defaultToFile := false, perfLoggerEnabled := false }
      { level := Level.Debug, file := "wallet2.cpp", line := 42,
        func := "refresh", message := "m" }).map ForwardedLog.level = some 0 ∧
    (0 : Nat) ≠ 1 :=
  ⟨rfl, by decide⟩

/-- C8 corrected: while the bridge is installed, every dispatched message is
forwarded with the fixed mapping trace = 0, debug = 0 (demoted to trace),
info = 2, warning = 3, error and fatal = 4, and the remaining levels
(verbose, global, unknown) fall to the default 1. -/
theorem claim8_level_mapping_amended (sys : LogSystem) (hinst : sys.installed = true)
    (file fn msg : String) (line : Nat) :
    (RustDispatch_handle sys ⟨Level.Trace, file, line, fn, msg⟩).map
      ForwardedLog.level = some 0 ∧
    (RustDispatch_handle sys ⟨Level.Debug, file, line, fn, msg⟩).map
      ForwardedLog.level = some 0 ∧
    (RustDispatch_handle sys ⟨Level.Info, file, line, fn, msg⟩).map
      ForwardedLog.level = some 2 ∧
    (RustDispatch_handle sys ⟨Level.Warning, file, line, fn, msg⟩).map
      ForwardedLog.level = some 3 ∧
    (RustDispatch_handle sys ⟨Level.Error, file, line, fn, msg⟩).map
      ForwardedLog.level = some 4 ∧
    (RustDispatch_handle sys ⟨Level.Fatal, file, line, fn, msg⟩).map
      ForwardedLog.level = some 4 ∧
    (RustDispatch_handle sys ⟨Level.Verbose, file, line, fn, msg⟩).map
      ForwardedLog.level = some 1 ∧
    (RustDispatch_handle sys ⟨Level.Global, file, line, fn, msg⟩).map
      ForwardedLog.level = some 1 ∧
    (RustDispatch_handle sys ⟨Level.Unknown, file, line, fn, msg⟩).map
      ForwardedLog.level = some 1 := by
  refine ⟨?_, ?_, ?_, ?_, ?_, ?_, ?_, ?_, ?_⟩ <;>
    simp [RustDispatch_handle, hinst]

/-- Witness for C8 amended at a concrete installed state and message. -/
theorem claim8_level_mapping_amended_witness :
    (RustDispatch_handle
      { installed := true, span_name := "s", dispatchCallbacks := [],
        toStandardOutput := false, toFile := false, defaultToStandardOutput := false,
        defaultToFile := false, perfLoggerEnabled := false }
      ⟨Level.Info, "f.cpp", 7, "g", "hello"⟩).map ForwardedLog.level = some 2 :=
  (claim8_level_mapping_amended
    { installed := true, span_name := "s", dispatchCallbacks := [],
      toStandardOutput := false, toFile := false, defaultToStandardOutput := false,
      defaultToFile := false, perfLoggerEnabled := false }
    rfl "f.cpp" "g" "hello" 7).2.2.1

end monero_rust_log